import Mathlib

/-!
# Shallow embedding of the COW movement-analysis ML core

This file embeds, in Lean 4, the prediction models and feature-engineering
utilities of the repository (the three model classes of
`IMPLEMENTATION_COMPLETE.md` — `KNNNextLocationModel`,
`LinearRegressionOptimalStayModel`, `KMeansClusteringModel` — and the
`FeatureEngineer` / `MissingValueHandler` classes of
`ml/featureEngineering.ts`), and proves properties of the embedded code.

Modelling conventions:
* JS numbers are idealized as exact rationals (`ℚ`).  Decimal literals such
  as `0.8` denote the exact rational.  Division over `ℚ` is total with
  `x / 0 = 0`; wherever the source could produce `NaN`/`Infinity` this is
  noted next to the definition.
* JS `Map` objects are association lists in insertion order: `Map.set`
  replaces the value of an existing key in place and appends a new key at
  the end; `Map.get` is the first-match lookup.
* `Array.prototype.sort` is stable (ECMA-262), and a stable sort by a total
  preorder is exactly `List.insertionSort` with that preorder.
* `Math.sqrt` appears in the source only (a) inside distance computations
  that are used purely in order comparisons — `sqrt` is strictly monotone on
  `[0, ∞)`, so those comparisons coincide with comparisons of the squared
  distances, which is how they are embedded — and (b) in a k-means
  similarity score and in scaler standard deviations, which are handled
  where they occur (see `SimilarityValue` and `ratSqrt`).
* `Date` values are opaque ticks (`Nat`): the code only copies them around.
-/

namespace CowML

abbrev Timestamp := Nat

/-- JS `x || d` on an optional number: `undefined` and `0` are falsy. -/
def jsOrQ (o : Option ℚ) (d : ℚ) : ℚ :=
  match o with
  | none => d
  | some x => if x = 0 then d else x

/-- JS `x || d` on an optional string: `undefined` and `""` are falsy. -/
def jsOrS (o : Option String) (d : String) : String :=
  match o with
  | none => d
  | some s => if s = "" then d else s

/-- JS `x || d` on an optional count: `undefined` and `0` are falsy. -/
def jsOrNat (o : Option Nat) (d : Nat) : Nat :=
  match o with
  | none => d
  | some n => if n = 0 then d else n

/-- The `metadata` bag of a `FeatureVector` (`types.ts`): all three fields
are optional. -/
structure VectorMetadata where
  currentLocation : Option String
  currentIdleDays : Option ℚ
  isWarehouseNow : Option Bool
deriving DecidableEq

/-- `FeatureVector` of `types.ts`. -/
structure FeatureVector where
  cowId : String
  features : List ℚ
  featureNames : List String
  normalizedFeatures : List ℚ
  timestamp : Timestamp
  metadata : VectorMetadata
deriving DecidableEq

/-- Squared Euclidean distance: the sum computed inside
`euclideanDistance(a, b)` before `Math.sqrt` is applied.  The source value
is `Math.sqrt` of this; it is only ever used in order comparisons (the KNN
neighbor sort and the nearest-centroid argmin), and `Math.sqrt` is strictly
monotone on `[0, ∞)`, so every such comparison coincides with the comparison
of this squared sum.  `(b[i] || 0)` reads `0` past the end of `b`, which
`List.getD` reproduces. -/
def sqEuclidean (a b : List ℚ) : ℚ :=
  a.enum.foldl (fun sum p => sum + (p.2 - b.getD p.1 0) ^ 2) 0

/-! ## KNNNextLocationModel -/

/-- `NextLocationTrainingData` of `types.ts`. -/
structure NextLocationTrainingData where
  cowId : String
  currentLocation : String
  currentIdleDays : ℚ
  features : FeatureVector
  nextLocation : String
  nextLocationType : String
  nextIsWarehouse : Bool
  timestamp : Timestamp
deriving DecidableEq

/-- One entry of the `predictions` array of a `NextLocationPrediction`. -/
structure LocationCandidate where
  location : String
  probability : ℚ
  confidence : ℚ
  reasoning : String
deriving DecidableEq

/-- The `topRecommendation` field of a `NextLocationPrediction`. -/
structure TopRecommendation where
  location : String
  probability : ℚ
  rationale : String
deriving DecidableEq

/-- `NextLocationPrediction` of `types.ts`.  At runtime the elements of
`alternativeOptions` are the same objects as the tail of `predictions`, so
they carry all four candidate fields. -/
structure NextLocationPrediction where
  cowId : String
  predictions : List LocationCandidate
  topRecommendation : TopRecommendation
  alternativeOptions : List LocationCandidate
  timestamp : Timestamp
deriving DecidableEq

/-- The mutable state of a `KNNNextLocationModel` instance: the
`k` hyperparameter (`hyperparameters.k`, initially `5`), the trained flag,
the retained training samples and the sorted label universe. -/
structure KnnState where
  kHyper : Option Nat
  isTrainedAndReady : Bool
  trainingData : List NextLocationTrainingData
  locations : List String
deriving DecidableEq

/-- Comparator of the KNN neighbor sort:
`sort((a, b) => a.distance - b.distance)` keeps `a` before `b` exactly when
`a.distance ≤ b.distance`. -/
def distLE (a b : NextLocationTrainingData × ℚ) : Prop := a.2 ≤ b.2

instance : DecidableRel distLE := fun a b => inferInstanceAs (Decidable (a.2 ≤ b.2))

/-- Comparator of the candidate sort:
`sort((a, b) => b.probability - a.probability)` keeps `a` before `b` exactly
when `b.probability ≤ a.probability` (descending, stable). -/
def probGE (a b : LocationCandidate) : Prop := b.probability ≤ a.probability

instance : DecidableRel probGE := fun a b => inferInstanceAs (Decidable (b.probability ≤ a.probability))

/-- One step of the neighbor-vote count:
`locationFreq.set(loc, (locationFreq.get(loc) || 0) + 1)` bumps an existing
key in place and appends a new key at the end. -/
def bumpCount (acc : List (String × Nat)) (loc : String) : List (String × Nat) :=
  match acc with
  | [] => [(loc, 1)]
  | (l, n) :: rest =>
      if l = loc then (l, n + 1) :: rest else (l, n) :: bumpCount rest loc

/-- The `locationFreq` map built by the `for (const neighbor of neighbors)`
loop, as its entry list in insertion order. -/
def tallyLocations (ls : List String) : List (String × Nat) :=
  ls.foldl bumpCount []

/-- The rationale template
`` `${count} of ${k} nearest neighbors moved to ${location}` ``. -/
def neighborReason (count k : Nat) (location : String) : String :=
  s!"{count} of {k} nearest neighbors moved to {location}"

/-- `const k = this.hyperparameters.k || 5`. -/
def knnEffectiveK (m : KnnState) : Nat := jsOrNat m.kHyper 5

/-- The `distances` array of `KNNNextLocationModel.predict`, carrying the
squared distance (see `sqEuclidean`). -/
def knnDistances (m : KnnState) (features : FeatureVector) :
    List (NextLocationTrainingData × ℚ) :=
  m.trainingData.map fun sample =>
    (sample, sqEuclidean features.features sample.features.features)

/-- The `neighbors` array: sort ascending by distance (stable), take the
`k` closest, keep the samples. -/
def knnNeighbors (m : KnnState) (features : FeatureVector) :
    List NextLocationTrainingData :=
  (((knnDistances m features).insertionSort distLE).take (knnEffectiveK m)).map Prod.fst

/-- The `predictions` array: one candidate per distinct neighbor label with
probability and confidence `count / k`, sorted by descending probability,
truncated to `topK`. -/
def knnCandidates (m : KnnState) (features : FeatureVector) (topK : Nat) :
    List LocationCandidate :=
  let k := knnEffectiveK m
  let freq := tallyLocations ((knnNeighbors m features).map (·.nextLocation))
  ((freq.map fun p =>
      { location := p.1
        probability := (p.2 : ℚ) / (k : ℚ)
        confidence := (p.2 : ℚ) / (k : ℚ)
        reasoning := neighborReason p.2 k p.1 : LocationCandidate }).insertionSort
    probGE).take topK

/-- `KNNNextLocationModel.predict(features, topK = 3)`.  Note the returned
`cowId` is `features.metadata?.currentLocation || features.cowId`. -/
def knnPredict (m : KnnState) (features : FeatureVector) (topK : Nat := 3) :
    List NextLocationPrediction :=
  if m.isTrainedAndReady = false ∨ m.trainingData = [] then []
  else
    let predictions := knnCandidates m features topK
    let topRecommendation : TopRecommendation :=
      match predictions with
      | p :: _ => { location := p.location, probability := p.probability,
                    rationale := p.reasoning }
      | [] => { location := "Unknown", probability := 0,
                rationale := "No predictions available" }
    [{ cowId := jsOrS features.metadata.currentLocation features.cowId
       predictions := predictions
       topRecommendation := topRecommendation
       alternativeOptions := predictions.drop 1
       timestamp := features.timestamp }]

/-- `KNNNextLocationModel.predict` assigns no field of the instance, so a
call returns the prediction together with the unchanged state. -/
def knnPredictCall (m : KnnState) (features : FeatureVector) (topK : Nat := 3) :
    List NextLocationPrediction × KnnState :=
  (knnPredict m features topK, m)

/-- The object serialized by `KNNNextLocationModel.encode`:
`{trainingData, locations, hyperparameters}`.  `JSON.stringify`/`JSON.parse`
round-trip this record; the blob is modelled structurally. -/
structure KnnBlob where
  trainingData : List NextLocationTrainingData
  locations : List String
  kHyper : Option Nat
deriving DecidableEq

/-- `KNNNextLocationModel.encode`. -/
def knnEncode (m : KnnState) : KnnBlob :=
  { trainingData := m.trainingData, locations := m.locations, kHyper := m.kHyper }

/-- `KNNNextLocationModel.decode`: restores the three serialized fields and
sets `isTrainedAndReady = true`, without calling `train`. -/
def knnDecode (b : KnnBlob) (m : KnnState) : KnnState :=
  { m with trainingData := b.trainingData, locations := b.locations,
           kHyper := b.kHyper, isTrainedAndReady := true }

/-! ## LinearRegressionOptimalStayModel -/

/-- The `confidenceInterval` field of an `OptimalStayPrediction`. -/
structure ConfidenceInterval where
  lower : ℚ
  upper : ℚ
deriving DecidableEq

/-- `OptimalStayPrediction` of `types.ts`. -/
structure OptimalStayPrediction where
  cowId : String
  currentLocation : String
  predictedStayDays : ℚ
  confidenceInterval : ConfidenceInterval
  movementReadinessScore : ℚ
  reasoning : String
  timestamp : Timestamp
deriving DecidableEq

/-- The mutable state of a `LinearRegressionOptimalStayModel` instance.
`coefficients[0]` doubles as the intercept, as in `train`. -/
structure RegState where
  isTrainedAndReady : Bool
  coefficients : List ℚ
  intercept : ℚ
  featureMeans : List ℚ
  featureStds : List ℚ
deriving DecidableEq

/-- ℚ idealization of `Number.prototype.toFixed(1)` for the nonnegative
values it is applied to here (a clamped prediction in `[1, 90]`): round to
the nearest tenth and print one decimal digit.  No theorem below depends on
this string. -/
def toFixed1 (q : ℚ) : String :=
  let n : Int := round (q * 10)
  s!"{n / 10}.{n % 10}"

/-- JS decimal rendering of a number, idealized as the canonical Lean `ℚ`
rendering.  No theorem below depends on this string. -/
def numToString (q : ℚ) : String := toString q

/-- The reasoning template of `LinearRegressionOptimalStayModel.predict`. -/
def stayReason (clamped currentIdle : ℚ) : String :=
  let stay := toFixed1 clamped
  let idle := numToString currentIdle
  s!"Based on historical patterns, expected stay is {stay} days. Currently idle for {idle} days."

/-- `LinearRegressionOptimalStayModel.predict`.

The trained branch normalizes by the fitted means/stds, takes
`intercept + Σ normalized[i] * (coefficients[i+1] || 0)` and clamps with
`Math.max(1, Math.min(90, prediction))`.  In JS a read past the end of
`featureMeans`/`featureStds` (a mismatched-dimension query, the fatal
caller-contract violation of the spec) yields `NaN`; the ℚ embedding reads
`0` there and totalizes `x / 0 = 0`. -/
def regPredict (m : RegState) (features : FeatureVector) : OptimalStayPrediction :=
  if m.isTrainedAndReady = false then
    { cowId := features.cowId
      currentLocation := jsOrS features.metadata.currentLocation "Unknown"
      predictedStayDays := 0
      confidenceInterval := { lower := 0, upper := 0 }
      movementReadinessScore := 0
      reasoning := "Model not trained"
      timestamp := features.timestamp }
  else
    let normalizedFeatures := features.features.enum.map fun p =>
      (p.2 - m.featureMeans.getD p.1 0) / m.featureStds.getD p.1 0
    let prediction := m.intercept +
      normalizedFeatures.enum.foldl
        (fun sum p => sum + p.2 * m.coefficients.getD (p.1 + 1) 0) 0
    let clampedPrediction := max 1 (min 90 prediction)
    let currentIdle := jsOrQ features.metadata.currentIdleDays 0
    let movementReadinessScore := min 1 (currentIdle / clampedPrediction)
    { cowId := features.cowId
      currentLocation := jsOrS features.metadata.currentLocation "Unknown"
      predictedStayDays := clampedPrediction
      confidenceInterval := { lower := max 1 (clampedPrediction * 0.8)
                              upper := clampedPrediction * 1.2 }
      movementReadinessScore := movementReadinessScore
      reasoning := stayReason clampedPrediction currentIdle
      timestamp := features.timestamp }

/-- The object serialized by `LinearRegressionOptimalStayModel.encode`:
`{coefficients, intercept, featureMeans, featureStds}`. -/
structure RegBlob where
  coefficients : List ℚ
  intercept : ℚ
  featureMeans : List ℚ
  featureStds : List ℚ
deriving DecidableEq

/-- `LinearRegressionOptimalStayModel.encode`. -/
def regEncode (m : RegState) : RegBlob :=
  { coefficients := m.coefficients, intercept := m.intercept,
    featureMeans := m.featureMeans, featureStds := m.featureStds }

/-- `LinearRegressionOptimalStayModel.decode`: restores the four serialized
fields and sets `isTrainedAndReady = true`, without calling `train`. -/
def regDecode (b : RegBlob) (m : RegState) : RegState :=
  { m with coefficients := b.coefficients, intercept := b.intercept,
           featureMeans := b.featureMeans, featureStds := b.featureStds,
           isTrainedAndReady := true }

/-! ## KMeansClusteringModel -/

/-- The `clusterCharacteristics` field of a `ClusterPrediction`. -/
structure ClusterCharacteristics where
  avgIdleDays : ℚ
  mostCommonPath : String
  preferredRegion : String
  typicalStayDuration : ℚ
deriving DecidableEq

/-- The `similarityScore` of a `ClusterPrediction`.  `Math.sqrt` is not
exactly representable over `ℚ`, so the score is carried symbolically:
`lit q` is a literal numeric value written by the code (the untrained
branch writes `0`, and `1 / (1 + Infinity)` with no centroid is `0`), and
`ofSqDist d` denotes `1 / (1 + Real.sqrt d)` where `d` is the squared
distance to the nearest centroid.  The denotation is injective on the
values that occur (`ofSqDist d` is positive, the literals here are `0`). -/
inductive SimilarityValue
  | lit (q : ℚ)
  | ofSqDist (d : ℚ)
deriving DecidableEq

/-- `ClusterPrediction` of `types.ts`. -/
structure ClusterPrediction where
  cowId : String
  clusterId : Nat
  clusterName : String
  similarityScore : SimilarityValue
  clusterCharacteristics : ClusterCharacteristics
  timestamp : Timestamp
deriving DecidableEq

/-- The mutable state of a `KMeansClusteringModel` instance.  `assignments`
is the entry list of the `Map<string, number>` in insertion order.  The
hyperparameters `k` / `maxIterations` are kept (they are not serialized by
`encode`). -/
structure KMeansState where
  kHyper : Option Nat
  maxIterations : Option Nat
  numClusters : Nat
  isTrainedAndReady : Bool
  centroids : List FeatureVector
  assignments : List (String × Nat)
deriving DecidableEq

/-- The nearest-centroid argmin loop of `KMeansClusteringModel.predict`:
`minDistance` starts at `Infinity` (modelled as `none`) and is beaten by a
strictly smaller distance, so the first centroid attaining the minimum
wins.  Distances are compared via their squares (see `sqEuclidean`). -/
def nearestCentroid (q : List ℚ) (centroids : List FeatureVector) :
    Nat × Option ℚ :=
  centroids.enum.foldl
    (fun acc p =>
      let d := sqEuclidean q p.2.features
      match acc.2 with
      | none => (p.1, some d)
      | some m => if d < m then (p.1, some d) else acc)
    (0, none)

/-- `KMeansClusteringModel.predict`.  The trained branch reports the nearest
centroid and `similarityScore = 1 / (1 + minDistance)`; with no centroid at
all `minDistance` stays `Infinity` and the JS score is `0`. -/
def kmeansPredict (m : KMeansState) (features : FeatureVector) : ClusterPrediction :=
  if m.isTrainedAndReady = false then
    { cowId := features.cowId
      clusterId := 0
      clusterName := "Unassigned"
      similarityScore := .lit 0
      clusterCharacteristics :=
        { avgIdleDays := 0, mostCommonPath := "Unknown",
          preferredRegion := "Unknown", typicalStayDuration := 0 }
      timestamp := features.timestamp }
  else
    let best := nearestCentroid features.features m.centroids
    { cowId := features.cowId
      clusterId := best.1
      clusterName := s!"Cluster_{best.1}"
      similarityScore :=
        match best.2 with
        | none => .lit 0
        | some d => .ofSqDist d
      clusterCharacteristics :=
        { avgIdleDays := features.features.getD 0 0
          mostCommonPath := "See cluster details"
          preferredRegion := "See cluster details"
          typicalStayDuration := features.features.getD 0 0 }
      timestamp := features.timestamp }

/-- `KMeansClusteringModel.predict` assigns no field of the instance, so a
call returns the prediction together with the unchanged state. -/
def kmeansPredictCall (m : KMeansState) (features : FeatureVector) :
    ClusterPrediction × KMeansState :=
  (kmeansPredict m features, m)

/-- The object serialized by `KMeansClusteringModel.encode`:
`{centroids, assignments, numClusters}` (hyperparameters are not
serialized). -/
structure KMeansBlob where
  centroids : List FeatureVector
  assignments : List (String × Nat)
  numClusters : Nat
deriving DecidableEq

/-- `KMeansClusteringModel.encode`. -/
def kmeansEncode (m : KMeansState) : KMeansBlob :=
  { centroids := m.centroids, assignments := m.assignments,
    numClusters := m.numClusters }

/-- `KMeansClusteringModel.decode`: restores the three serialized fields and
sets `isTrainedAndReady = true`, without calling `train`. -/
def kmeansDecode (b : KMeansBlob) (m : KMeansState) : KMeansState :=
  { m with centroids := b.centroids, assignments := b.assignments,
           numClusters := b.numClusters, isTrainedAndReady := true }

/-! ## FeatureEngineer: scaler fitting and normalization -/

/-- JS `Map.set`: replace the value of an existing key in place, append a
new key at the end. -/
def mapSet {α : Type} (m : List (String × α)) (k : String) (v : α) :
    List (String × α) :=
  match m with
  | [] => [(k, v)]
  | (k', v') :: rest =>
      if k' = k then (k, v) :: rest else (k', v') :: mapSet rest k v

/-- `Math.min(...values)` over a nonempty list (the only way the source
calls it; `Math.min()` of no argument would be `Infinity`). -/
def listMin : List ℚ → ℚ
  | [] => 0
  | x :: xs => xs.foldl min x

/-- `Math.max(...values)` over a nonempty list. -/
def listMax : List ℚ → ℚ
  | [] => 0
  | x :: xs => xs.foldl max x

/-- `Math.sqrt` idealized over `ℚ`: exact whenever the numerator and
denominator are perfect squares — the only inputs at which the theorems
below evaluate it (`ratSqrt 0 = 0`) — and a floor approximation of the
double result otherwise. -/
def ratSqrt (q : ℚ) : ℚ :=
  if q ≤ 0 then 0 else mkRat (Nat.sqrt q.num.toNat) (Nat.sqrt q.den)

/-- `` vector.featureNames[index] || `feature_${index}` ``: an out-of-range
read (`undefined`) and the empty string are both falsy. -/
def fallbackName (names : List String) (i : Nat) : String :=
  let n := names.getD i ""
  if n = "" then "feature_" ++ toString i else n

/-- The mutable scaler maps of a `FeatureEngineer` instance, as association
lists in insertion order: `featureScaleMap : name ↦ (min, max)`,
`featureMeanMap : name ↦ mean`, `featureStdMap : name ↦ std`. -/
structure ScalerState where
  featureScaleMap : List (String × (ℚ × ℚ))
  featureMeanMap : List (String × ℚ)
  featureStdMap : List (String × ℚ)
deriving DecidableEq

/-- A `FeatureEngineer` instance starts with three empty maps. -/
def emptyScaler : ScalerState := { featureScaleMap := [], featureMeanMap := [], featureStdMap := [] }

/-- The values collected for index `i` by the first loop of `fitScaler`:
`allFeatures.get(i)` holds `vector.features[i]` for every vector long
enough, in vector order. -/
def columnValues (vectors : List FeatureVector) (i : Nat) : List ℚ :=
  vectors.filterMap fun v => v.features.get? i

/-- `` vectors[0]?.featureNames[index] || `feature_${index}` ``. -/
def firstVectorName (vectors : List FeatureVector) (i : Nat) : String :=
  fallbackName (match vectors with | [] => [] | v :: _ => v.featureNames) i

/-- Key set of the `allFeatures` map of `fitScaler`: every index below the
longest feature list occurs (each vector contributes its indices `0, 1, …`
in order, so the keys are exactly `0, …, maxLen - 1`, in that order). -/
def maxFeatureLength (vectors : List FeatureVector) : Nat :=
  vectors.foldl (fun acc v => max acc v.features.length) 0

/-- The statistics the second loop of `fitScaler` computes for index group
`i`: `((min, max), mean, std)` with `std = Math.sqrt(variance)` (see
`ratSqrt`). -/
def columnStats (vectors : List FeatureVector) (i : Nat) : (ℚ × ℚ) × ℚ × ℚ :=
  let values := columnValues vectors i
  let mean := values.sum / (values.length : ℚ)
  let variance := (values.map fun v => (v - mean) ^ 2).sum / (values.length : ℚ)
  ((listMin values, listMax values), mean, ratSqrt variance)

/-- One iteration of the second loop of `fitScaler`: store the statistics
of index group `i` under the feature name of the **first vector** at `i`. -/
def fitScalerStep (vectors : List FeatureVector) (st : ScalerState) (i : Nat) :
    ScalerState :=
  let s := columnStats vectors i
  let featureName := firstVectorName vectors i
  { featureScaleMap := mapSet st.featureScaleMap featureName s.1
    featureMeanMap := mapSet st.featureMeanMap featureName s.2.1
    featureStdMap := mapSet st.featureStdMap featureName s.2.2 }

/-- `FeatureEngineer.fitScaler`.  The first loop groups feature values **by
index** (`allFeatures` is keyed by the numeric index `i`, with keys
`0, …, maxLen - 1` in ascending order); the second loop then labels the
statistics of index group `i` with the feature name of the **first vector**
at `i` and stores them with `Map.set` into the instance maps (which it does
not clear, hence the `st` parameter; all theorems below fit from
`emptyScaler`). -/
def fitScaler (st : ScalerState) (vectors : List FeatureVector) : ScalerState :=
  (List.range (maxFeatureLength vectors)).foldl (fitScalerStep vectors) st

/-- `FeatureEngineer.normalizeMinMax`: look the scale up **by the own feature
name of the vector** at each index; a missing name passes the value through;
`max === min` returns `0` (the divide-by-zero guard). -/
def normalizeMinMax (st : ScalerState) (vector : FeatureVector) : List ℚ :=
  vector.features.enum.map fun p =>
    let featureName := fallbackName vector.featureNames p.1
    match st.featureScaleMap.lookup featureName with
    | none => p.2
    | some scale =>
        if scale.2 = scale.1 then 0 else (p.2 - scale.1) / (scale.2 - scale.1)

/-- `FeatureEngineer.standardize`:
`mean = featureMeanMap.get(name) || 0`, `std = featureStdMap.get(name) || 1`,
then `if (std === 0) return 0` else `(value - mean) / std`.  Note the
`|| 1` turns a *stored* std of `0` into `1` before the zero test, so the
`std === 0` guard can never fire: a zero-std feature is standardized to
`value - mean`, not to `0`. -/
def standardize (st : ScalerState) (vector : FeatureVector) : List ℚ :=
  vector.features.enum.map fun p =>
    let featureName := fallbackName vector.featureNames p.1
    let mean := jsOrQ (st.featureMeanMap.lookup featureName) 0
    let std := jsOrQ (st.featureStdMap.lookup featureName) 1
    if std = 0 then 0 else (p.2 - mean) / std

/-- Reference definition that follows the words of the spec for claim C7
("grouped by feature name, not index"): the value a vector has for the
feature named `n` is its entry at the first position where its **own** name
list holds `n`. -/
def valueOfName (v : FeatureVector) (n : String) : Option ℚ :=
  (v.featureNames.zip v.features).lookup n

/-- Reference definition that follows the words of the spec for claim C7: the
name-grouped corpus values for the feature named `n`. -/
def nameGroupedValues (vectors : List FeatureVector) (n : String) : List ℚ :=
  vectors.filterMap fun v => valueOfName v n

/-- Reference definition that follows the words of the spec for claim C7: min-max
statistics fitted per feature name from the name-grouped values. -/
def nameGroupedScale (vectors : List FeatureVector) (n : String) : ℚ × ℚ :=
  (listMin (nameGroupedValues vectors n), listMax (nameGroupedValues vectors n))

/-- Reference definition that follows the words of the spec for claim C7: min-max
normalization against the name-grouped statistics. -/
def normalizeMinMaxByName (vectors : List FeatureVector) (vector : FeatureVector) :
    List ℚ :=
  vector.features.enum.map fun p =>
    let featureName := fallbackName vector.featureNames p.1
    let scale := nameGroupedScale vectors featureName
    if scale.2 = scale.1 then 0 else (p.2 - scale.1) / (scale.2 - scale.1)

/-! ## MissingValueHandler -/

/-- A JS value sitting in a `number[]` slot as `MissingValueHandler` sees
it: a finite number, `NaN`, `±Infinity`, `null` or `undefined`. -/
inductive JNum
  | num (q : ℚ)
  | nan
  | posInf
  | negInf
  | null
  | undef
deriving DecidableEq

/-- Global `isNaN` on such a value: `isNaN(NaN)` and `isNaN(undefined)` are
`true`; numbers, `±Infinity` and `null` (which coerces to `0`) give
`false`. -/
def JNum.isNaNJS : JNum → Bool
  | .nan => true
  | .undef => true
  | _ => false

/-- `f !== null && f !== undefined && !isNaN(f)`: the slot test of
`MissingValueHandler`. -/
def JNum.isPresent (f : JNum) : Bool :=
  !(f == JNum.null) && !(f == JNum.undef) && !f.isNaNJS

/-- Whether a value is a finite number (what the spec calls "finite"):
`false` for `NaN`, `±Infinity`, `null`, `undefined`. -/
def JNum.isFinite : JNum → Bool
  | .num _ => true
  | _ => false

/-- A `FeatureVector` whose feature slots may hold the JS non-numbers that
`MissingValueHandler` is written to handle. -/
structure JFeatureVector where
  cowId : String
  features : List JNum
  featureNames : List String
  normalizedFeatures : List JNum
  timestamp : Timestamp
deriving DecidableEq

/-- `MissingValueHandler.dropMissing`: keep exactly the vectors all of
whose feature slots pass `f !== null && f !== undefined && !isNaN(f)`. -/
def dropMissing (vectors : List JFeatureVector) : List JFeatureVector :=
  vectors.filter fun vector => vector.features.all JNum.isPresent

/-! ## Concrete fixtures used by witnesses and counterexamples -/

/-- An empty metadata bag. -/
def noMeta : VectorMetadata := ⟨none, none, none⟩

/-- A pathological all-zero query vector. -/
def zeroVector : FeatureVector := ⟨"cow-0", [0, 0, 0], [], [], 0, noMeta⟩

/-- A query vector with an empty feature list. -/
def emptyVector : FeatureVector := ⟨"cow-e", [], [], [], 0, noMeta⟩

/-- A small trained regression state (as left by a `train` call: nonzero
stds, `coefficients[0]` the intercept). -/
def trainedRegModel : RegState := ⟨true, [3, 2, 0, 1], 3, [0, 0, 0], [1, 1, 1]⟩

/-- A query vector carrying `metadata.currentIdleDays = 40`. -/
def idleVector : FeatureVector := ⟨"cow-1", [5, 0, 0], [], [], 0, ⟨none, some 40, none⟩⟩

/-- A single KNN training sample. -/
def oneSample : NextLocationTrainingData :=
  ⟨"c1", "w", 0, ⟨"c1", [1], [], [], 0, noMeta⟩, "A", "site", false, 0⟩

/-- A trained single-sample KNN state with the default `k = 5`. -/
def oneSampleModel : KnnState := ⟨some 5, true, [oneSample], ["A"]⟩

/-- A query vector whose metadata carries a current location. -/
def metaLocVector : FeatureVector := ⟨"cow-q", [0], [], [], 0, ⟨some "LOC-1", none, none⟩⟩

/-- A trained two-centroid k-means state. -/
def twoCentroidModel : KMeansState :=
  ⟨some 3, some 100, 2, true,
   [⟨"centroid_0", [0, 0], [], [], 0, noMeta⟩, ⟨"centroid_1", [5, 5], [], [], 0, noMeta⟩],
   [("c1", 0), ("c2", 1)]⟩

/-- A corpus vector whose only feature `f` is the constant `7`. -/
def constVecA : FeatureVector := ⟨"w1", [7], ["f"], [], 0, noMeta⟩

/-- A second corpus vector with the same constant feature. -/
def constVecB : FeatureVector := ⟨"w2", [7], ["f"], [], 0, noMeta⟩

/-- A probe vector whose feature `f` is `9`, away from the constant `7`. -/
def probeVec : FeatureVector := ⟨"wq", [9], ["f"], [], 0, noMeta⟩

/-- A vector whose single feature slot holds `Infinity`. -/
def infSlotVector : JFeatureVector := ⟨"v-inf", [JNum.posInf], [], [], 0⟩

/-- A training sample for the C2 voting scenario: entity `cid`, feature
list `fs`, destination label `loc`. -/
def voteSample (cid loc : String) (fs : List ℚ) : NextLocationTrainingData :=
  ⟨cid, "warehouse", 0, ⟨cid, fs, [], [], 0, noMeta⟩, loc, "site", false, 0⟩

/-- A trained KNN state with the default `k = 5` holding exactly five
samples with arbitrary feature vectors: three vote `"A"`, two vote `"B"`. -/
def voteModel (f1 f2 f3 f4 f5 : List ℚ) : KnnState :=
  ⟨some 5, true,
   [voteSample "c1" "A" f1, voteSample "c2" "A" f2, voteSample "c3" "A" f3,
    voteSample "c4" "B" f4, voteSample "c5" "B" f5], ["A", "B"]⟩

/-- The query vector of the C2 voting scenario (arbitrary features). -/
def voteQuery (qf : List ℚ) : FeatureVector := ⟨"cow-q", qf, [], [], 0, noMeta⟩

/-- A corpus vector with names `[a, b]` and features `[0, 10]`. -/
def reorderVecA : FeatureVector := ⟨"v1", [0, 10], ["a", "b"], [], 0, noMeta⟩

/-- A corpus vector with the **reordered** names `[b, a]` and features
`[2, 4]` (so its value for `a` is `4` and for `b` is `2`). -/
def reorderVecB : FeatureVector := ⟨"v2", [2, 4], ["b", "a"], [], 0, noMeta⟩

/-- A corpus vector with names `[a, b]` and features `[0, 10]`. -/
def sharedVecA : FeatureVector := ⟨"u1", [0, 10], ["a", "b"], [], 0, noMeta⟩

/-- A corpus vector with the same name order and features `[2, 4]`. -/
def sharedVecB : FeatureVector := ⟨"u2", [2, 4], ["a", "b"], [], 0, noMeta⟩

/-! ## Theorems -/

/-- Restoring the three serialized KNN fields into any fresh instance and
setting the trained flag reproduces a trained source state exactly. -/
theorem knnDecode_encode (m : KnnState) (fresh : KnnState)
    (h : m.isTrainedAndReady = true) : knnDecode (knnEncode m) fresh = m := by
  obtain ⟨kh, tr, td, loc⟩ := m
  cases tr
  · cases h
  · rfl

/-- Restoring the four serialized regression fields into any fresh instance
and setting the trained flag reproduces a trained source state exactly. -/
theorem regDecode_encode (m : RegState) (fresh : RegState)
    (h : m.isTrainedAndReady = true) : regDecode (regEncode m) fresh = m := by
  obtain ⟨tr, c, ic, fm, fs⟩ := m
  cases tr
  · cases h
  · rfl

/-- C1: for a trained optimal-stay model, `predict` returns a
`predictedStayDays` inside the inclusive range `[1, 90]` for **every**
input feature vector, pathological ones included — the clamp
`Math.max(1, Math.min(90, prediction))` is a hard invariant of the trained
prediction path.  (The untrained branch, the subject of C3, returns the
neutral `0` instead.) -/
theorem predictedStay_within_bounds (m : RegState) (features : FeatureVector)
    (h : m.isTrainedAndReady = true) :
    1 ≤ (regPredict m features).predictedStayDays ∧
      (regPredict m features).predictedStayDays ≤ 90 := by
  simp only [regPredict, h]
  norm_num

/-- Witness for C1 at a pathological all-zero feature vector. -/
theorem predictedStay_within_bounds_witness :
    1 ≤ (regPredict trainedRegModel zeroVector).predictedStayDays ∧
      (regPredict trainedRegModel zeroVector).predictedStayDays ≤ 90 :=
  predictedStay_within_bounds trainedRegModel zeroVector rfl

/-- C3: predicting against a model with no training data is total and
neutral: the KNN classifier returns the empty prediction list, the
regression model returns zero predicted days with the explanatory
rationale `"Model not trained"`, and the clustering model returns cluster
id `0` named `"Unassigned"` with similarity `0` (`SimilarityValue.lit 0`
denotes the literal number `0`). -/
theorem untrained_predict_is_neutral (mK : KnnState) (mR : RegState)
    (mC : KMeansState) (v : FeatureVector) (topK : Nat)
    (hK : mK.trainingData = []) (hR : mR.isTrainedAndReady = false)
    (hC : mC.isTrainedAndReady = false) :
    knnPredict mK v topK = [] ∧
    ((regPredict mR v).predictedStayDays = 0 ∧
      (regPredict mR v).reasoning = "Model not trained") ∧
    ((kmeansPredict mC v).clusterId = 0 ∧
      (kmeansPredict mC v).clusterName = "Unassigned" ∧
      (kmeansPredict mC v).similarityScore = SimilarityValue.lit 0) := by
  refine ⟨?_, ⟨?_, ?_⟩, ?_, ?_, ?_⟩ <;>
    simp [knnPredict, regPredict, kmeansPredict, hK, hR, hC]

/-- Witness for C3 at freshly constructed (never trained) model states. -/
theorem untrained_predict_is_neutral_witness :
    knnPredict ⟨some 5, false, [], []⟩ zeroVector 3 = [] ∧
    ((regPredict ⟨false, [], 0, [], []⟩ zeroVector).predictedStayDays = 0 ∧
      (regPredict ⟨false, [], 0, [], []⟩ zeroVector).reasoning = "Model not trained") ∧
    ((kmeansPredict ⟨some 3, some 100, 3, false, [], []⟩ zeroVector).clusterId = 0 ∧
      (kmeansPredict ⟨some 3, some 100, 3, false, [], []⟩ zeroVector).clusterName = "Unassigned" ∧
      (kmeansPredict ⟨some 3, some 100, 3, false, [], []⟩ zeroVector).similarityScore
        = SimilarityValue.lit 0) :=
  untrained_predict_is_neutral _ _ _ _ _ rfl rfl rfl

/-- C4: `predict` mutates no model state, so repeated calls on the same
state are deterministic: a second KNN `predict` (with `k = 5`) on the
post-call state returns the identical result list, and a second k-means
`predict` of the same vector returns the same cluster id. -/
theorem predict_repeat_deterministic (mK : KnnState) (mC : KMeansState)
    (v w : FeatureVector) (topK : Nat) (hk : mK.kHyper = some 5) :
    ((knnPredictCall ((knnPredictCall mK v topK).2) v topK).1
        = (knnPredictCall mK v topK).1) ∧
    ((kmeansPredictCall ((kmeansPredictCall mC w).2) w).1.clusterId
        = (kmeansPredictCall mC w).1.clusterId) :=
  ⟨rfl, rfl⟩

/-- Witness for C4 at concrete trained states. -/
theorem predict_repeat_deterministic_witness :
    ((knnPredictCall ((knnPredictCall oneSampleModel zeroVector 3).2) zeroVector 3).1
        = (knnPredictCall oneSampleModel zeroVector 3).1) ∧
    ((kmeansPredictCall ((kmeansPredictCall twoCentroidModel zeroVector).2) zeroVector).1.clusterId
        = (kmeansPredictCall twoCentroidModel zeroVector).1.clusterId) :=
  predict_repeat_deterministic oneSampleModel twoCentroidModel zeroVector zeroVector 3 rfl

/-- C5: for each trained model, feeding `encode()` into `decode()` on a
fresh instance restores the trained flag and the prediction-relevant
internal state (training samples / coefficients and normalization stats /
centroids and assignments) without re-running `train` (`decode` only
copies fields), and the restored model predicts identically. -/
theorem encode_decode_restores_trained
    (mK : KnnState) (mR : RegState) (mC : KMeansState)
    (freshK : KnnState) (freshR : RegState) (freshC : KMeansState)
    (v : FeatureVector) (topK : Nat)
    (hK : mK.isTrainedAndReady = true) (hR : mR.isTrainedAndReady = true)
    (hC : mC.isTrainedAndReady = true) :
    ((knnDecode (knnEncode mK) freshK).isTrainedAndReady = true ∧
      (knnDecode (knnEncode mK) freshK).trainingData = mK.trainingData ∧
      (knnDecode (knnEncode mK) freshK).locations = mK.locations ∧
      knnPredict (knnDecode (knnEncode mK) freshK) v topK = knnPredict mK v topK) ∧
    ((regDecode (regEncode mR) freshR).isTrainedAndReady = true ∧
      (regDecode (regEncode mR) freshR).coefficients = mR.coefficients ∧
      (regDecode (regEncode mR) freshR).intercept = mR.intercept ∧
      (regDecode (regEncode mR) freshR).featureMeans = mR.featureMeans ∧
      (regDecode (regEncode mR) freshR).featureStds = mR.featureStds ∧
      regPredict (regDecode (regEncode mR) freshR) v = regPredict mR v) ∧
    ((kmeansDecode (kmeansEncode mC) freshC).isTrainedAndReady = true ∧
      (kmeansDecode (kmeansEncode mC) freshC).centroids = mC.centroids ∧
      (kmeansDecode (kmeansEncode mC) freshC).assignments = mC.assignments ∧
      (kmeansDecode (kmeansEncode mC) freshC).numClusters = mC.numClusters ∧
      kmeansPredict (kmeansDecode (kmeansEncode mC) freshC) v = kmeansPredict mC v) := by
  refine ⟨?_, ?_, ?_⟩
  · rw [knnDecode_encode mK freshK hK]
    exact ⟨hK, rfl, rfl, rfl⟩
  · rw [regDecode_encode mR freshR hR]
    exact ⟨hR, rfl, rfl, rfl, rfl, rfl⟩
  · refine ⟨rfl, rfl, rfl, rfl, ?_⟩
    obtain ⟨kh, mi, nc, tr, cent, asg⟩ := mC
    cases tr
    · cases hC
    · rfl

/-- Witness for C5 at concrete trained states decoded into fresh untrained
instances. -/
theorem encode_decode_restores_trained_witness :
    ((knnDecode (knnEncode oneSampleModel) ⟨some 5, false, [], []⟩).isTrainedAndReady = true ∧
      (knnDecode (knnEncode oneSampleModel) ⟨some 5, false, [], []⟩).trainingData
        = oneSampleModel.trainingData ∧
      (knnDecode (knnEncode oneSampleModel) ⟨some 5, false, [], []⟩).locations
        = oneSampleModel.locations ∧
      knnPredict (knnDecode (knnEncode oneSampleModel) ⟨some 5, false, [], []⟩) zeroVector 3
        = knnPredict oneSampleModel zeroVector 3) ∧
    ((regDecode (regEncode trainedRegModel) ⟨false, [], 0, [], []⟩).isTrainedAndReady = true ∧
      (regDecode (regEncode trainedRegModel) ⟨false, [], 0, [], []⟩).coefficients
        = trainedRegModel.coefficients ∧
      (regDecode (regEncode trainedRegModel) ⟨false, [], 0, [], []⟩).intercept
        = trainedRegModel.intercept ∧
      (regDecode (regEncode trainedRegModel) ⟨false, [], 0, [], []⟩).featureMeans
        = trainedRegModel.featureMeans ∧
      (regDecode (regEncode trainedRegModel) ⟨false, [], 0, [], []⟩).featureStds
        = trainedRegModel.featureStds ∧
      regPredict (regDecode (regEncode trainedRegModel) ⟨false, [], 0, [], []⟩) zeroVector
        = regPredict trainedRegModel zeroVector) ∧
    ((kmeansDecode (kmeansEncode twoCentroidModel) ⟨some 3, some 100, 3, false, [], []⟩).isTrainedAndReady = true ∧
      (kmeansDecode (kmeansEncode twoCentroidModel) ⟨some 3, some 100, 3, false, [], []⟩).centroids
        = twoCentroidModel.centroids ∧
      (kmeansDecode (kmeansEncode twoCentroidModel) ⟨some 3, some 100, 3, false, [], []⟩).assignments
        = twoCentroidModel.assignments ∧
      (kmeansDecode (kmeansEncode twoCentroidModel) ⟨some 3, some 100, 3, false, [], []⟩).numClusters
        = twoCentroidModel.numClusters ∧
      kmeansPredict (kmeansDecode (kmeansEncode twoCentroidModel) ⟨some 3, some 100, 3, false, [], []⟩) zeroVector
        = kmeansPredict twoCentroidModel zeroVector) :=
  encode_decode_restores_trained oneSampleModel trainedRegModel twoCentroidModel
    _ _ _ zeroVector 3 rfl rfl rfl

/-- C8 counterexample: when the clamped prediction is `1` (here: an empty
coefficient list gives raw prediction `0`, clamped up to `1`), the reported
lower confidence bound is `Math.max(1, 0.8 · p) = 1`, not `0.8 · p = 0.8`,
so the interval is **not** `±20%` of the prediction as claimed. -/
theorem ciLower_not_always_pm20 :
    (regPredict ⟨true, [], 0, [], []⟩ emptyVector).predictedStayDays = 1 ∧
    (regPredict ⟨true, [], 0, [], []⟩ emptyVector).confidenceInterval.lower = 1 ∧
    (regPredict ⟨true, [], 0, [], []⟩ emptyVector).confidenceInterval.lower
      ≠ 0.8 * (regPredict ⟨true, [], 0, [], []⟩ emptyVector).predictedStayDays := by
  refine ⟨?_, ?_, ?_⟩ <;>
    norm_num [regPredict, emptyVector, noMeta, jsOrQ, min_def, max_def]

/-- C8 amended: for every trained optimal-stay prediction, the upper
confidence bound is `1.2 ·` the clamped prediction, the lower bound is
`max(1, 0.8 ·` the clamped prediction`)` — i.e. `±20%` clipped below at one
day — and the movement readiness score is
`min(1, currentIdleDays / predictedStayDays)` with the idle days read from
the metadata (defaulting to `0`). -/
theorem ci_and_readiness_formulas (m : RegState) (v : FeatureVector)
    (h : m.isTrainedAndReady = true) :
    (regPredict m v).confidenceInterval.lower
        = max 1 ((regPredict m v).predictedStayDays * 0.8) ∧
    (regPredict m v).confidenceInterval.upper
        = (regPredict m v).predictedStayDays * 1.2 ∧
    (regPredict m v).movementReadinessScore
        = min 1 (jsOrQ v.metadata.currentIdleDays 0 / (regPredict m v).predictedStayDays) := by
  simp [regPredict, h]

/-- Witness for the amended C8 at a concrete trained model and a query
with `currentIdleDays = 40`. -/
theorem ci_and_readiness_formulas_witness :
    (regPredict trainedRegModel idleVector).confidenceInterval.lower
        = max 1 ((regPredict trainedRegModel idleVector).predictedStayDays * 0.8) ∧
    (regPredict trainedRegModel idleVector).confidenceInterval.upper
        = (regPredict trainedRegModel idleVector).predictedStayDays * 1.2 ∧
    (regPredict trainedRegModel idleVector).movementReadinessScore
        = min 1 (jsOrQ idleVector.metadata.currentIdleDays 0
            / (regPredict trainedRegModel idleVector).predictedStayDays) :=
  ci_and_readiness_formulas trainedRegModel idleVector rfl

/-- C9 counterexample: a vector whose single feature slot holds `Infinity`
— a non-finite value — is returned unchanged by `dropMissing` (the filter
only tests `null`, `undefined` and `NaN`), whereas the claim says every
vector containing a non-finite value is excluded. -/
theorem dropMissing_keeps_infinity :
    dropMissing [infSlotVector] = [infSlotVector] ∧
      infSlotVector.features.all JNum.isFinite = false := by
  refine ⟨?_, ?_⟩ <;> decide

/-- C9 amended: `dropMissing` returns exactly the input vectors whose
feature slots contain no `null`, `undefined` or `NaN` value (infinities
are kept); the surviving vectors are unchanged and in input order (the
result is a sublist of the input). -/
theorem dropMissing_characterization (vectors : List JFeatureVector)
    (v : JFeatureVector) :
    (dropMissing vectors).Sublist vectors ∧
    (v ∈ dropMissing vectors ↔ v ∈ vectors ∧ v.features.all JNum.isPresent = true) :=
  ⟨List.filter_sublist _, by simp [dropMissing, List.mem_filter]⟩

/-- C10: the entity-id slot (`cowId`) of every returned KNN prediction is
`features.metadata?.currentLocation || features.cowId`: it holds the
**current location** from the metadata whenever that field is present and
non-empty, and falls back to the query entity id only when the field is
absent or empty (both falsy in JS). -/
theorem knn_result_cowId (m : KnnState) (q : FeatureVector) (topK : Nat)
    (hT : m.isTrainedAndReady = true) (hD : m.trainingData ≠ []) :
    (knnPredict m q topK).map NextLocationPrediction.cowId
      = [match q.metadata.currentLocation with
         | some loc => if loc = "" then q.cowId else loc
         | none => q.cowId] := by
  have hcond : ¬ (m.isTrainedAndReady = false ∨ m.trainingData = []) := by
    simp [hT, hD]
  simp only [knnPredict, if_neg hcond, List.map_cons, List.map_nil]
  rcases q.metadata.currentLocation with _ | loc
  · rfl
  · rfl

/-- Witness for C10: with metadata location `"LOC-1"` present, the
entity-id slot of the result holds `"LOC-1"`, not the query id `"cow-q"`. -/
theorem knn_result_cowId_witness :
    (knnPredict oneSampleModel metaLocVector 3).map NextLocationPrediction.cowId
      = ["LOC-1"] :=
  knn_result_cowId oneSampleModel metaLocVector 3 rfl (List.cons_ne_nil _ _)

/-- C6 (code bug): after fitting on a corpus whose feature `f` is the
constant `7`, the fitted standard deviation of `f` is `0`, yet
`standardize` maps a probe value `9` to `value - mean = 2` instead of the
guarded `0`: the `|| 1` default turns the stored `0` into `1` **before**
the `std === 0` guard, making that guard dead code and contradicting both
the spec and the inline intent of the guard. -/
theorem standardize_zero_std_bug :
    (fitScaler emptyScaler [constVecA, constVecB]).featureStdMap.lookup "f" = some 0 ∧
    standardize (fitScaler emptyScaler [constVecA, constVecB]) probeVec = [2] ∧
    (2 : ℚ) ≠ 0 := by
  have hfit : fitScaler emptyScaler [constVecA, constVecB]
      = ⟨[("f", (7, 7))], [("f", 7)], [("f", 0)]⟩ := by
    norm_num +decide [fitScaler, fitScalerStep, columnStats, columnValues,
      maxFeatureLength, firstVectorName, fallbackName, ratSqrt, mapSet, emptyScaler,
      listMin, listMax, constVecA, constVecB, List.range_succ, List.filterMap_cons,
      List.filterMap_nil]
  refine ⟨?_, ?_, by norm_num⟩ <;> rw [hfit]
  · norm_num +decide [List.lookup]
  · norm_num +decide [standardize, fallbackName, jsOrQ, probeVec, List.lookup,
      List.enum, List.enumFrom]

/-- Folding the vote-count step over labels drawn from `{a, b}`, starting
from a map holding both keys, bumps the two counts in place. -/
theorem foldl_bumpCount_pair (a b : String) (hab : a ≠ b) :
    ∀ (l : List String), (∀ x ∈ l, x = a ∨ x = b) → ∀ i j : Nat,
      List.foldl bumpCount [(a, i), (b, j)] l
        = [(a, i + l.count a), (b, j + l.count b)] := by
  intro l
  induction l with
  | nil => intro _ i j; simp
  | cons x t ih =>
    intro hl i j
    have ht : ∀ y ∈ t, y = a ∨ y = b := fun y hy => hl y (List.mem_cons_of_mem _ hy)
    rcases hl x (List.mem_cons_self x t) with rfl | rfl
    · rw [List.foldl_cons]
      have hstep : bumpCount [(x, i), (b, j)] x = [(x, i + 1), (b, j)] := by
        simp [bumpCount]
      rw [hstep, ih ht (i + 1) j]
      simp [List.count_cons, hab, hab.symm]
      omega
    · rw [List.foldl_cons]
      have hstep : bumpCount [(a, i), (x, j)] x = [(a, i), (x, j + 1)] := by
        simp [bumpCount, hab]
      rw [hstep, ih ht i (j + 1)]
      simp [List.count_cons, hab, hab.symm]
      omega

/-- Folding the vote-count step over labels drawn from `{a, b}`, starting
from a map holding only key `a`, bumps the `a` count in place and appends
`b` at the end on its first occurrence. -/
theorem foldl_bumpCount_single (a b : String) (hab : a ≠ b) :
    ∀ (l : List String), (∀ x ∈ l, x = a ∨ x = b) → ∀ i : Nat,
      List.foldl bumpCount [(a, i)] l
        = if b ∈ l then [(a, i + l.count a), (b, l.count b)]
          else [(a, i + l.count a)] := by
  intro l
  induction l with
  | nil => intro _ i; simp
  | cons x t ih =>
    intro hl i
    have ht : ∀ y ∈ t, y = a ∨ y = b := fun y hy => hl y (List.mem_cons_of_mem _ hy)
    rcases hl x (List.mem_cons_self x t) with rfl | rfl
    · rw [List.foldl_cons]
      have hstep : bumpCount [(x, i)] x = [(x, i + 1)] := by simp [bumpCount]
      rw [hstep, ih ht (i + 1)]
      by_cases hb : b ∈ t
      · have hb2 : b ∈ x :: t := List.mem_cons_of_mem _ hb
        simp only [if_pos hb, if_pos hb2]
        simp [List.count_cons, hab, hab.symm]
        omega
      · have hb2 : b ∉ x :: t := by
          simp [List.mem_cons, hab.symm, hb]
        simp only [if_neg hb, if_neg hb2]
        simp [List.count_cons, hab, hab.symm]
        omega
    · rw [List.foldl_cons]
      have hstep : bumpCount [(a, i)] x = [(a, i), (x, 1)] := by
        simp [bumpCount, hab]
      rw [hstep, foldl_bumpCount_pair a x hab t ht i 1]
      have hx2 : x ∈ x :: t := List.mem_cons_self x t
      simp only [if_pos hx2]
      simp [List.count_cons, hab, hab.symm]
      omega

/-- The `locationFreq` map of a label list drawn from `{a, b}` containing
both labels is exactly the two keys with their occurrence counts, in one
of the two insertion orders. -/
theorem tallyLocations_pair_shape (a b : String) (hab : a ≠ b)
    (l : List String) (hl : ∀ x ∈ l, x = a ∨ x = b)
    (ha : a ∈ l) (hb : b ∈ l) :
    tallyLocations l = [(a, l.count a), (b, l.count b)] ∨
      tallyLocations l = [(b, l.count b), (a, l.count a)] := by
  cases l with
  | nil => cases ha
  | cons x t =>
    have ht : ∀ y ∈ t, y = a ∨ y = b := fun y hy => hl y (List.mem_cons_of_mem _ hy)
    rcases hl x (List.mem_cons_self x t) with rfl | rfl
    · left
      have hbt : b ∈ t := by
        rcases List.mem_cons.mp hb with h | h
        · exact absurd h.symm hab
        · exact h
      simp only [tallyLocations, List.foldl_cons]
      have hstep : bumpCount [] x = [(x, 1)] := rfl
      rw [hstep, foldl_bumpCount_single x b hab t ht 1, if_pos hbt]
      simp [List.count_cons, hab, hab.symm]
      omega
    · right
      have hat : a ∈ t := by
        rcases List.mem_cons.mp ha with h | h
        · exact absurd h hab
        · exact h
      simp only [tallyLocations, List.foldl_cons]
      have hstep : bumpCount [] x = [(x, 1)] := rfl
      rw [hstep,
        foldl_bumpCount_single x a (fun h => hab h.symm) t
          (fun y hy => (ht y hy).symm) 1, if_pos hat]
      simp [List.count_cons, hab, hab.symm]
      omega

/-- C2: for the trained KNN model with the default `k = 5` and five
training samples of which three are labeled `"A"` and two `"B"` —
arbitrary feature vectors and an arbitrary query vector — `predict`
measures the (Euclidean) distance to every sample, takes the five closest
(all of them), tallies the votes, assigns probabilities `votes / k`, sorts
descending, and returns the top recommendation `"A"` with probability
`3/5 = 0.6` and the rationale `"3 of 5 nearest neighbors moved to A"`,
with `"B"` at probability `2/5` as the alternative. -/
theorem knn_three_of_five_votes (f1 f2 f3 f4 f5 qf : List ℚ) :
    knnPredict (voteModel f1 f2 f3 f4 f5) (voteQuery qf) 3 =
      [{ cowId := "cow-q"
         predictions :=
           [⟨"A", 3 / 5, 3 / 5, "3 of 5 nearest neighbors moved to A"⟩,
            ⟨"B", 2 / 5, 2 / 5, "2 of 5 nearest neighbors moved to B"⟩]
         topRecommendation := ⟨"A", 3 / 5, "3 of 5 nearest neighbors moved to A"⟩
         alternativeOptions := [⟨"B", 2 / 5, 2 / 5, "2 of 5 nearest neighbors moved to B"⟩]
         timestamp := 0 }] := by
  set m := voteModel f1 f2 f3 f4 f5 with hm
  set q := voteQuery qf with hq
  have hK : knnEffectiveK m = 5 := rfl
  have hperm : List.Perm ((knnNeighbors m q).map fun s => s.nextLocation)
      ["A", "A", "A", "B", "B"] := by
    have hlen5 : (knnDistances m q).length = 5 := by
      simp [knnDistances, hm, voteModel]
    have htake : ((knnDistances m q).insertionSort distLE).take (knnEffectiveK m)
        = (knnDistances m q).insertionSort distLE := by
      apply List.take_of_length_le
      rw [(List.perm_insertionSort distLE _).length_eq, hlen5, hK]
    unfold knnNeighbors
    rw [htake, List.map_map]
    have hmap := (List.perm_insertionSort distLE (knnDistances m q)).map
      ((fun s => s.nextLocation) ∘ Prod.fst)
    refine hmap.trans ?_
    have : (knnDistances m q).map ((fun s => s.nextLocation) ∘ Prod.fst)
        = ["A", "A", "A", "B", "B"] := by
      simp [knnDistances, hm, voteModel, voteSample]
    rw [this]
  have hcA : ((knnNeighbors m q).map (fun s => s.nextLocation)).count "A" = 3 := by
    rw [hperm.count_eq]; rfl
  have hcB : ((knnNeighbors m q).map (fun s => s.nextLocation)).count "B" = 2 := by
    rw [hperm.count_eq]; rfl
  have hmem : ∀ x ∈ (knnNeighbors m q).map (fun s => s.nextLocation),
      x = "A" ∨ x = "B" := by
    intro x hx
    have h := hperm.mem_iff.mp hx
    simp only [List.mem_cons, List.not_mem_nil, or_false] at h
    tauto
  have hmemA : "A" ∈ (knnNeighbors m q).map (fun s => s.nextLocation) :=
    hperm.mem_iff.mpr (by simp)
  have hmemB : "B" ∈ (knnNeighbors m q).map (fun s => s.nextLocation) :=
    hperm.mem_iff.mpr (by simp)
  have htally := tallyLocations_pair_shape "A" "B" (by decide) _ hmem hmemA hmemB
  rw [hcA, hcB] at htally
  have hcand : knnCandidates m q 3 =
      [⟨"A", 3 / 5, 3 / 5, "3 of 5 nearest neighbors moved to A"⟩,
       ⟨"B", 2 / 5, 2 / 5, "2 of 5 nearest neighbors moved to B"⟩] := by
    rcases htally with h | h <;>
      · simp only [knnCandidates, hK, h]
        norm_num +decide [List.insertionSort, List.orderedInsert, probGE,
          neighborReason, List.map_cons, List.map_nil]
  have hguard : ¬ (m.isTrainedAndReady = false ∨ m.trainingData = []) := by
    simp [hm, voteModel]
  simp only [knnPredict, if_neg hguard, hcand]
  simp [hq, voteQuery, noMeta, jsOrS]

/-- Folding `maxLen` over vectors of one common feature-list length. -/
theorem maxFeatureLength_foldl_const (L : Nat) :
    ∀ (l : List FeatureVector) (a : Nat), (∀ v ∈ l, v.features.length = L) →
      l.foldl (fun acc v => max acc v.features.length) a
        = if l = [] then a else max a L := by
  intro l
  induction l with
  | nil => intro a _; simp
  | cons v t ih =>
    intro a hl
    rw [List.foldl_cons, ih (max a v.features.length)
      (fun y hy => hl y (List.mem_cons_of_mem _ hy)), hl v (List.mem_cons_self v t)]
    by_cases ht : t = []
    · simp [ht]
    · simp [ht, max_assoc]

/-- `fitScaler` over a corpus of vectors sharing one feature-list length
ranges over exactly that many column indices. -/
theorem maxFeatureLength_const (v0 : FeatureVector) (vrest : List FeatureVector)
    (L : Nat) (hlen : ∀ v ∈ v0 :: vrest, v.features.length = L) :
    maxFeatureLength (v0 :: vrest) = L := by
  unfold maxFeatureLength
  rw [maxFeatureLength_foldl_const L (v0 :: vrest) 0 hlen]
  simp

/-- With the index in range and no empty name, the `|| feature_i` fallback
never fires. -/
theorem fallbackName_get (names : List String) (hne : "" ∉ names)
    (j : Nat) (hj : j < names.length) :
    fallbackName names j = names.get ⟨j, hj⟩ := by
  unfold fallbackName
  rw [List.getD_eq_getElem names "" hj]
  have hmem : names[j] ∈ names := List.get_mem names j hj
  rw [if_neg]
  · rfl
  · intro h
    exact hne (h ▸ hmem)

/-- First-match lookup at the head key. -/
theorem lookup_cons_self {α : Type} (k : String) (v : α) (t : List (String × α)) :
    List.lookup k ((k, v) :: t) = some v := by
  simp [List.lookup]

/-- First-match lookup skips a head entry with a different key. -/
theorem lookup_cons_ne {α : Type} (k q : String) (v : α) (t : List (String × α))
    (h : q ≠ k) : List.lookup q ((k, v) :: t) = List.lookup q t := by
  have hb : (q == k) = false := beq_eq_false_iff_ne.mpr h
  simp [List.lookup, hb]

/-- `Map.set` of a key stores it retrievably. -/
theorem lookup_mapSet_self {α : Type} (m : List (String × α)) (k : String) (v : α) :
    (mapSet m k v).lookup k = some v := by
  induction m with
  | nil => exact lookup_cons_self k v []
  | cons p t ih =>
    obtain ⟨k1, v1⟩ := p
    by_cases h : k1 = k
    · subst h
      simp only [mapSet, if_true]
      exact lookup_cons_self _ v t
    · simp only [mapSet]
      rw [if_neg h, lookup_cons_ne k1 k v1 (mapSet t k v) (Ne.symm h)]
      exact ih

/-- `Map.set` leaves lookups of other keys unchanged. -/
theorem lookup_mapSet_of_ne {α : Type} (m : List (String × α)) (k q : String)
    (v : α) (h : q ≠ k) : (mapSet m k v).lookup q = m.lookup q := by
  induction m with
  | nil => exact lookup_cons_ne k q v [] h
  | cons p t ih =>
    obtain ⟨k1, v1⟩ := p
    by_cases h1 : k1 = k
    · subst h1
      simp only [mapSet, if_true]
      rw [lookup_cons_ne k1 q v t h, lookup_cons_ne k1 q v1 t h]
    · simp only [mapSet]
      rw [if_neg h1]
      by_cases h2 : q = k1
      · subst h2
        rw [lookup_cons_self, lookup_cons_self]
      · rw [lookup_cons_ne k1 q v1 (mapSet t k v) h2, lookup_cons_ne k1 q v1 t h2]
        exact ih

/-- A fold of `Map.set` steps whose keys all differ from `k` does not
change the lookup of `k`. -/
theorem lookup_foldl_mapSet_notmem {α : Type} (f : Nat → String) (g : Nat → α)
    (k : String) :
    ∀ (l : List Nat) (mp : List (String × α)), (∀ j ∈ l, f j ≠ k) →
      (l.foldl (fun mp j => mapSet mp (f j) (g j)) mp).lookup k = mp.lookup k := by
  intro l
  induction l with
  | nil => intro mp _; rfl
  | cons x t ih =>
    intro mp hl
    rw [List.foldl_cons, ih _ (fun y hy => hl y (List.mem_cons_of_mem _ hy)),
      lookup_mapSet_of_ne mp (f x) k (g x) (Ne.symm (hl x (List.mem_cons_self x t)))]

/-- A fold of `Map.set` steps with injectively named keys stores the value
of every visited index retrievably under its key. -/
theorem lookup_foldl_mapSet_mem {α : Type} (f : Nat → String) (g : Nat → α) :
    ∀ (l : List Nat), l.Nodup → (∀ x ∈ l, ∀ y ∈ l, f x = f y → x = y) →
      ∀ j ∈ l, ∀ (mp : List (String × α)),
        (l.foldl (fun mp j => mapSet mp (f j) (g j)) mp).lookup (f j) = some (g j) := by
  intro l
  induction l with
  | nil => intro _ _ j hj; cases hj
  | cons x t ih =>
    intro hnd hinj j hj mp
    rw [List.foldl_cons]
    rcases List.mem_cons.mp hj with rfl | hjt
    · rw [lookup_foldl_mapSet_notmem f g (f j) t _ ?_, lookup_mapSet_self]
      intro y hy hfy
      have hyx : y = j :=
        hinj y (List.mem_cons_of_mem _ hy) j (List.mem_cons_self j t) hfy
      exact (List.nodup_cons.mp hnd).1 (hyx ▸ hy)
    · exact ih (List.nodup_cons.mp hnd).2
        (fun x1 hx1 y1 hy1 => hinj x1 (List.mem_cons_of_mem _ hx1) y1
          (List.mem_cons_of_mem _ hy1)) j hjt _

/-- The scale-map component of the `fitScaler` fold is the corresponding
fold of `Map.set` steps. -/
theorem featureScaleMap_foldl (vectors : List FeatureVector) :
    ∀ (l : List Nat) (st : ScalerState),
      (l.foldl (fitScalerStep vectors) st).featureScaleMap
        = l.foldl
            (fun mp j => mapSet mp (firstVectorName vectors j) (columnStats vectors j).1)
            st.featureScaleMap := by
  intro l
  induction l with
  | nil => intro st; rfl
  | cons x t ih =>
    intro st
    rw [List.foldl_cons, List.foldl_cons, ih]
    rfl

/-- The mean-map component of the `fitScaler` fold is the corresponding
fold of `Map.set` steps. -/
theorem featureMeanMap_foldl (vectors : List FeatureVector) :
    ∀ (l : List Nat) (st : ScalerState),
      (l.foldl (fitScalerStep vectors) st).featureMeanMap
        = l.foldl
            (fun mp j => mapSet mp (firstVectorName vectors j) (columnStats vectors j).2.1)
            st.featureMeanMap := by
  intro l
  induction l with
  | nil => intro st; rfl
  | cons x t ih =>
    intro st
    rw [List.foldl_cons, List.foldl_cons, ih]
    rfl

/-- Looking a name up in zipped (name, value) pairs with distinct names
retrieves the positional value: the by-name reading of a vector agrees
with the by-index reading when the names are a shared nodup list. -/
theorem lookup_zip_get (names : List String) :
    ∀ (fs : List ℚ), names.Nodup → fs.length = names.length →
      ∀ (i : Nat) (hi : i < names.length),
        (names.zip fs).lookup (names.get ⟨i, hi⟩) = fs.get? i := by
  induction names with
  | nil => intro fs _ _ i hi; exact absurd hi (by simp)
  | cons n nt ih =>
    intro fs hnd hlen i hi
    cases fs with
    | nil => simp at hlen
    | cons f ft =>
      cases i with
      | zero => simp [List.lookup]
      | succ i1 =>
        have hi1 : i1 < nt.length := by simpa using hi
        have hkey : nt.get ⟨i1, hi1⟩ ≠ n := by
          intro h
          exact (List.nodup_cons.mp hnd).1 (h ▸ List.get_mem nt i1 hi1)
        show List.lookup (nt.get ⟨i1, hi1⟩) ((n, f) :: nt.zip ft) = ft.get? i1
        rw [lookup_cons_ne n (nt.get ⟨i1, hi1⟩) f (nt.zip ft) hkey,
          ih ft (List.nodup_cons.mp hnd).2 (by simpa using hlen) i1 hi1]

/-- When every vector of the corpus carries the same duplicate-free name
list, the index-`i` column of `fitScaler` holds exactly the name-grouped
values of the `i`-th name. -/
theorem columnValues_eq_nameGrouped (v0 : FeatureVector) (vrest : List FeatureVector)
    (names : List String) (hnodup : names.Nodup)
    (hnames : ∀ v ∈ v0 :: vrest, v.featureNames = names)
    (hlen : ∀ v ∈ v0 :: vrest, v.features.length = names.length)
    (i : Nat) (hi : i < names.length) :
    columnValues (v0 :: vrest) i
      = nameGroupedValues (v0 :: vrest) (names.get ⟨i, hi⟩) := by
  unfold columnValues nameGroupedValues valueOfName
  apply List.filterMap_congr
  intro v hv
  rw [hnames v hv]
  exact (lookup_zip_get names v.features hnodup (hlen v hv) i hi).symm

/-- The group label chosen by `fitScaler` for index `j` is the `j`-th
shared name. -/
theorem firstVectorName_shared (v0 : FeatureVector) (vrest : List FeatureVector)
    (names : List String) (hne : "" ∉ names)
    (h0 : v0.featureNames = names) (j : Nat) (hj : j < names.length) :
    firstVectorName (v0 :: vrest) j = names.get ⟨j, hj⟩ := by
  show fallbackName v0.featureNames j = names.get ⟨j, hj⟩
  rw [h0]
  exact fallbackName_get names hne j hj

/-- C7 counterexample: `fitScaler` groups by index, not by name.  With the
corpus `[reorderVecA, reorderVecB]` whose second vector reverses the name
order, the index-0 group (values `[0, 2]`) is labeled with the FIRST
vector name `"a"` even though the second vector holds its `b`-value there;
the subsequently normalized reordered vector comes out `[-1/3, 2]` instead
of the name-grouped-correct `[0, 1]` the claim promises. -/
theorem fitScaler_misgroups_reordered_names :
    normalizeMinMax (fitScaler emptyScaler [reorderVecA, reorderVecB]) reorderVecB
        = [-(1 / 3), 2] ∧
    normalizeMinMaxByName [reorderVecA, reorderVecB] reorderVecB = [0, 1] ∧
    ([-(1 / 3), 2] : List ℚ) ≠ [0, 1] := by
  have hfit : (fitScaler emptyScaler [reorderVecA, reorderVecB]).featureScaleMap
      = [("a", (0, 2)), ("b", (4, 10))] := by
    unfold fitScaler
    rw [featureScaleMap_foldl]
    norm_num +decide [columnStats, columnValues, maxFeatureLength, firstVectorName,
      fallbackName, mapSet, emptyScaler, listMin, listMax, reorderVecA, reorderVecB,
      List.range_succ, List.filterMap_cons, List.filterMap_nil, min_def, max_def]
  have hba : (("b" : String) == "a") = false := by decide
  have hab : (("a" : String) == "b") = false := by decide
  refine ⟨?_, ?_, by norm_num⟩
  · simp only [normalizeMinMax]
    rw [hfit]
    norm_num +decide [fallbackName, reorderVecB, List.lookup, List.enum,
      List.enumFrom, hba, hab]
  · norm_num +decide [normalizeMinMaxByName, nameGroupedScale, nameGroupedValues,
      valueOfName, fallbackName, reorderVecA, reorderVecB, listMin, listMax,
      List.lookup, List.enum, List.enumFrom, List.filterMap_cons,
      List.filterMap_nil, List.zip, List.zipWith, min_def, max_def, hba, hab]

/-- C7 amended: `fitScaler` groups statistics **by column index**, labeling
index group `i` with the feature name of the first vector at `i`.  When the
whole corpus shares one duplicate-free feature-name ordering with no empty
name — the `FeatureVector` invariant of the data model — the fitted
per-name min-max and mean statistics nevertheless coincide with the
name-grouped statistics of the spec, so identically-ordered vectors are
normalized correctly; vectors with reordered names are not (see the
counterexample). -/
theorem fitScaler_shared_name_order
    (v0 : FeatureVector) (vrest : List FeatureVector) (names : List String)
    (i : Nat) (hi : i < names.length) (hnodup : names.Nodup) (hne : "" ∉ names)
    (hnames : ∀ v ∈ v0 :: vrest, v.featureNames = names)
    (hlen : ∀ v ∈ v0 :: vrest, v.features.length = names.length) :
    (fitScaler emptyScaler (v0 :: vrest)).featureScaleMap.lookup (names.get ⟨i, hi⟩)
        = some (nameGroupedScale (v0 :: vrest) (names.get ⟨i, hi⟩)) ∧
    (fitScaler emptyScaler (v0 :: vrest)).featureMeanMap.lookup (names.get ⟨i, hi⟩)
        = some ((nameGroupedValues (v0 :: vrest) (names.get ⟨i, hi⟩)).sum
            / ((nameGroupedValues (v0 :: vrest) (names.get ⟨i, hi⟩)).length : ℚ)) := by
  have hmax : maxFeatureLength (v0 :: vrest) = names.length :=
    maxFeatureLength_const v0 vrest names.length hlen
  have h0 : v0.featureNames = names := hnames v0 (List.mem_cons_self v0 vrest)
  have hfvn : ∀ (j : Nat) (hj : j < names.length),
      firstVectorName (v0 :: vrest) j = names.get ⟨j, hj⟩ :=
    fun j hj => firstVectorName_shared v0 vrest names hne h0 j hj
  have hinj : ∀ x ∈ List.range names.length, ∀ y ∈ List.range names.length,
      firstVectorName (v0 :: vrest) x = firstVectorName (v0 :: vrest) y → x = y := by
    intro x hx y hy hxy
    have hx1 := List.mem_range.mp hx
    have hy1 := List.mem_range.mp hy
    rw [hfvn x hx1, hfvn y hy1] at hxy
    exact congrArg Fin.val ((List.Nodup.get_inj_iff hnodup).mp hxy)
  have hmem : i ∈ List.range names.length := List.mem_range.mpr hi
  have hcol := columnValues_eq_nameGrouped v0 vrest names hnodup hnames hlen i hi
  constructor
  · unfold fitScaler
    rw [hmax, featureScaleMap_foldl]
    have hlook := lookup_foldl_mapSet_mem (firstVectorName (v0 :: vrest))
      (fun j => (columnStats (v0 :: vrest) j).1) (List.range names.length)
      (List.nodup_range _) hinj i hmem emptyScaler.featureScaleMap
    rw [hfvn i hi] at hlook
    rw [hlook]
    have hstats : (columnStats (v0 :: vrest) i).1
        = (listMin (columnValues (v0 :: vrest) i),
           listMax (columnValues (v0 :: vrest) i)) := rfl
    rw [hstats, hcol]
    rfl
  · unfold fitScaler
    rw [hmax, featureMeanMap_foldl]
    have hlook := lookup_foldl_mapSet_mem (firstVectorName (v0 :: vrest))
      (fun j => (columnStats (v0 :: vrest) j).2.1) (List.range names.length)
      (List.nodup_range _) hinj i hmem emptyScaler.featureMeanMap
    rw [hfvn i hi] at hlook
    rw [hlook]
    have hstats : (columnStats (v0 :: vrest) i).2.1
        = (columnValues (v0 :: vrest) i).sum
            / ((columnValues (v0 :: vrest) i).length : ℚ) := rfl
    rw [hstats, hcol]

/-- Witness for the amended C7 at a concrete two-vector corpus sharing the
name order `[a, b]`. -/
theorem fitScaler_shared_name_order_witness :
    (fitScaler emptyScaler [sharedVecA, sharedVecB]).featureScaleMap.lookup "a"
        = some (nameGroupedScale [sharedVecA, sharedVecB] "a") ∧
    (fitScaler emptyScaler [sharedVecA, sharedVecB]).featureMeanMap.lookup "a"
        = some ((nameGroupedValues [sharedVecA, sharedVecB] "a").sum
            / ((nameGroupedValues [sharedVecA, sharedVecB] "a").length : ℚ)) :=
  fitScaler_shared_name_order sharedVecA [sharedVecB] ["a", "b"] 0 (by norm_num)
    (by decide) (by decide) (by decide) (by decide)

end CowML
